import Mathlib

/-!
Shallow embedding of the vectorized string kernels of
src/rust/datafusion/src/physical_plan/string_expressions.rs
(concatenate, lpad, lower/upper/trim/ltrim/rtrim), together with
theorems settling the behavioural claims about them.

Modelling conventions:
- A Rust string is a list of unicode scalar values (Lean Char), with its
  UTF-8 byte length computed from Char.utf8Size; a string array slot is
  Option (List Char) with none = null.
- A dynamically typed ArrayRef is an inductive with one constructor per
  concrete array kind that appears in the source (Utf8, LargeUtf8, Int64).
- A kernel returns RunResult: ok (output array), err (a returned
  DataFusionError), or panicked (a Rust panic: failed unwrap, or a byte
  slice x[..length] that does not fall on a character boundary).
-/

set_option autoImplicit false

namespace StringExprs

/-- A Rust string value, as its sequence of unicode scalar values. -/
abbrev RStr := List Char

/-- A columnar string array: one optional string per row (none = null). -/
abbrev Utf8Col := List (Option RStr)

/-- A columnar Int64 array: one optional signed integer per row. -/
abbrev Int64Col := List (Option Int)

/-- The UTF-8 byte length of a string, i.e. Rust str::len. -/
def utf8Len (s : RStr) : Nat := (s.map Char.utf8Size).sum

/-- Rust cast i64 -> usize on a 64-bit target: wraps modulo 2^64. -/
def i64ToUsize (v : Int) : Nat := (v % (2 : Int) ^ 64).toNat

/-- Rust byte slice x[..n] followed by to_string: walks the characters,
consuming n bytes; returns none (a panic) when n is not a character
boundary or exceeds the byte length. -/
def byteSlice : RStr → Nat → Option RStr
  | _, 0 => some []
  | [], _ + 1 => none
  | c :: cs, n + 1 =>
    if c.utf8Size ≤ n + 1 then
      (byteSlice cs (n + 1 - c.utf8Size)).map (fun r => c :: r)
    else none

/-- The error type: the source only ever builds DataFusionError::Internal. -/
inductive DataFusionError : Type
  | Internal (msg : String)
deriving DecidableEq

/-- Outcome of running a kernel: a returned array, a returned error, or a
Rust panic (failed unwrap / out-of-boundary byte slice / bad index). -/
inductive RunResult (α : Type) : Type
  | ok (a : α)
  | err (e : DataFusionError)
  | panicked
deriving DecidableEq

/-- The offset-width type parameter T of GenericStringArray<T>. -/
inductive OffsetWidth : Type
  | i32
  | i64
deriving DecidableEq

/-- A dynamically typed array argument (Rust ArrayRef), one constructor per
concrete array kind used by these kernels. -/
inductive ArrayRef : Type
  | utf8 (data : Utf8Col)
  | largeUtf8 (data : Utf8Col)
  | int64 (data : Int64Col)
deriving DecidableEq

/-- downcast_ref to GenericStringArray of the given offset width. -/
def downcastStr (T : OffsetWidth) : ArrayRef → Option Utf8Col
  | ArrayRef.utf8 d => match T with
    | OffsetWidth.i32 => some d
    | OffsetWidth.i64 => none
  | ArrayRef.largeUtf8 d => match T with
    | OffsetWidth.i32 => none
    | OffsetWidth.i64 => some d
  | ArrayRef.int64 _ => none

/-- downcast_ref to Int64Array. -/
def downcastI64 : ArrayRef → Option Int64Col
  | ArrayRef.int64 d => some d
  | _ => none

/-- The downcast_vec! macro specialised to StringArray (= i32 offsets), as
used by concatenate: the collect over the iterator of downcast results
stops at the first failure, which becomes Internal "failed to downcast". -/
def downcastVec : List ArrayRef → Except DataFusionError (List Utf8Col)
  | [] => Except.ok []
  | a :: rest =>
    match a with
    | ArrayRef.utf8 d =>
      match downcastVec rest with
      | Except.ok ds => Except.ok (d :: ds)
      | Except.error e => Except.error e
    | _ => Except.error (DataFusionError.Internal "failed to downcast")

/-- One row of concatenate: visit the columns in order, short-circuiting to
null on the first null, otherwise accumulating the concatenation. -/
def concatRow : List Utf8Col → Nat → Option RStr
  | [], _ => some []
  | c :: rest, i =>
    match c.getD i none with
    | none => none
    | some v => (concatRow rest i).map (fun s => v ++ s)

/-- The concatenate kernel: downcast every argument to StringArray, reject
zero arguments, then emit one row per index of the first argument. -/
def concatenate (args : List ArrayRef) : RunResult Utf8Col :=
  match downcastVec args with
  | Except.error e => RunResult.err e
  | Except.ok cols =>
    if cols.isEmpty then
      RunResult.err (DataFusionError.Internal
        "Concatenate was called with 0 arguments. It requires at least one.")
    else
      RunResult.ok ((List.range (cols.headD []).length).map (concatRow cols))

/-- Core of one non-null 2-argument lpad row: target length already cast to
usize; mirrors the if/else chain of the source (length == 0, length <
x.len() byte comparison with byte slicing, otherwise prepend spaces).
Returns none on the panic of a non-boundary byte slice. -/
def lpadCore2 (x : RStr) (length : Nat) : Option RStr :=
  if length = 0 then some []
  else if length < utf8Len x then byteSlice x length
  else some (List.replicate (length - utf8Len x) ' ' ++ x)

/-- Core of one non-null 3-argument lpad row: as lpadCore2, but an empty
fill yields the string unchanged and a non-empty fill is cycled
character-by-character for length - x.len() characters. -/
def lpadCore3 (x : RStr) (fill : RStr) (length : Nat) : Option RStr :=
  if length = 0 then some []
  else if length < utf8Len x then byteSlice x length
  else if fill.isEmpty then some x
  else some (((List.range (length - utf8Len x)).map
    (fun l => fill.getD (l % fill.length) ' ')) ++ x)

/-- One 2-argument lpad row: null length or null string gives null; outer
none is a panic escaping from the byte slice. -/
def lpad2Row (x : Option RStr) (len : Option Int) : Option (Option RStr) :=
  match len with
  | none => some none
  | some L =>
    match x with
    | none => some none
    | some s => (lpadCore2 s (i64ToUsize L)).map some

/-- One 3-argument lpad row: null length, null fill or null string gives
null; outer none is a panic escaping from the byte slice. -/
def lpad3Row (x : Option RStr) (len : Option Int) (fill : Option RStr) :
    Option (Option RStr) :=
  match len, fill with
  | some L, some f =>
    match x with
    | none => some none
    | some s => (lpadCore3 s f (i64ToUsize L)).map some
  | _, _ => some none

/-- Collect per-row outcomes into a whole-kernel outcome: any panicking row
makes the collect panic. -/
def collectRows : List (Option (Option RStr)) → Option Utf8Col
  | [] => some []
  | r :: rs =>
    match r with
    | none => none
    | some v => (collectRows rs).map (fun out => v :: out)

/-- The 2-argument lpad loop over the rows of the string array. -/
def lpad2Arr (strs : Utf8Col) (lens : Int64Col) : RunResult Utf8Col :=
  match collectRows ((List.range strs.length).map
      (fun i => lpad2Row (strs.getD i none) (lens.getD i none))) with
  | none => RunResult.panicked
  | some out => RunResult.ok out

/-- The 3-argument lpad loop over the rows of the string array. -/
def lpad3Arr (strs : Utf8Col) (lens : Int64Col) (fills : Utf8Col) :
    RunResult Utf8Col :=
  match collectRows ((List.range strs.length).map
      (fun i => lpad3Row (strs.getD i none) (lens.getD i none)
        (fills.getD i none))) with
  | none => RunResult.panicked
  | some out => RunResult.ok out

/-- The lpad kernel. Argument-count dispatch; in the 2-argument form the
string downcast is unwrapped (panic on failure) while the length downcast
returns an error; in the 3-argument form all three downcasts are unwrapped;
any other arity returns the arity error of the source. -/
def lpad (T : OffsetWidth) (args : List ArrayRef) : RunResult Utf8Col :=
  match args with
  | [a0, a1] =>
    match downcastStr T a0 with
    | none => RunResult.panicked
    | some strs =>
      match downcastI64 a1 with
      | none => RunResult.err (DataFusionError.Internal
          "could not cast length to Int64Array")
      | some lens => lpad2Arr strs lens
  | [a0, a1, a2] =>
    match downcastStr T a0, downcastI64 a1, downcastStr T a2 with
    | some strs, some lens, some fills => lpad3Arr strs lens fills
    | _, _, _ => RunResult.panicked
  | other => RunResult.err (DataFusionError.Internal
      ("lpad was called with " ++ toString other.length ++
        " arguments. It requires 2 or 3."))

/-- Rust char::is_whitespace: the Unicode White_Space property. -/
def rustIsWhitespace (c : Char) : Bool :=
  let n := c.toNat
  decide (9 ≤ n ∧ n ≤ 13) || n == 32 || n == 0x85 || n == 0xA0 ||
    n == 0x1680 || decide (0x2000 ≤ n ∧ n ≤ 0x200A) || n == 0x2028 ||
    n == 0x2029 || n == 0x202F || n == 0x205F || n == 0x3000

/-- Rust char::to_ascii_lowercase: ASCII uppercase letters map down by 32,
every other character is unchanged. -/
def asciiLower (c : Char) : Char :=
  if 65 ≤ c.toNat ∧ c.toNat ≤ 90 then Char.ofNat (c.toNat + 32) else c

/-- Rust char::to_ascii_uppercase: ASCII lowercase letters map up by 32,
every other character is unchanged. -/
def asciiUpper (c : Char) : Char :=
  if 97 ≤ c.toNat ∧ c.toNat ≤ 122 then Char.ofNat (c.toNat - 32) else c

/-- Rust str::to_ascii_lowercase over the whole string. -/
def asciiLowerStr (s : RStr) : RStr := s.map asciiLower

/-- Rust str::to_ascii_uppercase over the whole string. -/
def asciiUpperStr (s : RStr) : RStr := s.map asciiUpper

/-- Rust str::trim_start: drop leading whitespace. -/
def trimStartFn (s : RStr) : RStr := s.dropWhile rustIsWhitespace

/-- Rust str::trim_end: drop trailing whitespace. -/
def trimEndFn (s : RStr) : RStr := (s.reverse.dropWhile rustIsWhitespace).reverse

/-- Rust str::trim: drop whitespace at both ends. -/
def trimFn (s : RStr) : RStr := trimEndFn (trimStartFn s)

/-- Body of the string_unary_function! macro: index args[0] (panic when
empty), unwrap the string downcast (panic on failure), then map the
per-row function under the null mask. -/
def string_unary (f : RStr → RStr) (T : OffsetWidth) (args : List ArrayRef) :
    RunResult Utf8Col :=
  match args with
  | [] => RunResult.panicked
  | a :: _ =>
    match downcastStr T a with
    | none => RunResult.panicked
    | some data => RunResult.ok (data.map (Option.map f))

/-- string_unary_function!(lower, to_ascii_lowercase). -/
def lower (T : OffsetWidth) (args : List ArrayRef) : RunResult Utf8Col :=
  string_unary asciiLowerStr T args

/-- string_unary_function!(upper, to_ascii_uppercase). -/
def upper (T : OffsetWidth) (args : List ArrayRef) : RunResult Utf8Col :=
  string_unary asciiUpperStr T args

/-- string_unary_function!(trim, trim). -/
def trim (T : OffsetWidth) (args : List ArrayRef) : RunResult Utf8Col :=
  string_unary trimFn T args

/-- string_unary_function!(ltrim, trim_start). -/
def ltrim (T : OffsetWidth) (args : List ArrayRef) : RunResult Utf8Col :=
  string_unary trimStartFn T args

/-- string_unary_function!(rtrim, trim_end). -/
def rtrim (T : OffsetWidth) (args : List ArrayRef) : RunResult Utf8Col :=
  string_unary trimEndFn T args

/-- Convenience: the character sequence of a Lean string literal. -/
def str (s : String) : RStr := s.toList

/-! ### Helper lemmas -/

theorem getD_map_of_lt {α β : Type} (g : α → β) (l : List α) (i : Nat)
    (h : i < l.length) (d : β) (d2 : α) :
    (l.map g).getD i d = g (l.getD i d2) := by
  rw [List.getD_eq_getElem _ _ (by simpa using h), List.getD_eq_getElem _ _ h,
    List.getElem_map]

theorem rangeMap_getD {α : Type} (f : Nat → α) (n i : Nat) (h : i < n)
    (d : α) : ((List.range n).map f).getD i d = f i := by
  rw [getD_map_of_lt f (List.range n) i (by simpa using h) d 0,
    List.getD_eq_getElem _ _ (by simpa using h), List.getElem_range]

theorem concatRow_of_null (cols : List Utf8Col) (i : Nat)
    (h : cols.any (fun c => (c.getD i none).isNone) = true) :
    concatRow cols i = none := by
  induction cols with
  | nil => simp at h
  | cons c rest ih =>
    show (match c.getD i none with
      | none => none
      | some v => (concatRow rest i).map (fun s => v ++ s)) = none
    cases hc : c.getD i none with
    | none => rfl
    | some v =>
      have hr : rest.any (fun c => (c.getD i none).isNone) = true := by
        simp only [List.any_cons, hc, Option.isNone_some, Bool.false_or] at h
        exact h
      show (concatRow rest i).map (fun s => v ++ s) = none
      rw [ih hr]
      rfl

theorem concatRow_of_no_null (cols : List Utf8Col) (i : Nat)
    (h : cols.any (fun c => (c.getD i none).isNone) = false) :
    concatRow cols i =
      some ((cols.map (fun c => (c.getD i none).getD [])).flatten) := by
  induction cols with
  | nil => rfl
  | cons c rest ih =>
    simp only [List.any_cons, Bool.or_eq_false_iff] at h
    obtain ⟨h1, h2⟩ := h
    show (match c.getD i none with
      | none => none
      | some v => (concatRow rest i).map (fun s => v ++ s)) = _
    cases hc : c.getD i none with
    | none => rw [hc] at h1; simp at h1
    | some v =>
      show (concatRow rest i).map (fun s => v ++ s) = _
      rw [ih h2]
      simp only [List.map_cons, List.flatten_cons, Option.map_some]
      rw [hc]
      rfl

theorem downcastVec_utf8 (cols : List Utf8Col) :
    downcastVec (cols.map ArrayRef.utf8) = Except.ok cols := by
  induction cols with
  | nil => rfl
  | cons c rest ih => simp [downcastVec, ih]

theorem collectRows_eq_some (l : List (Option (Option RStr))) (out : Utf8Col)
    (h : collectRows l = some out) : l = out.map some := by
  induction l generalizing out with
  | nil =>
    simp only [collectRows, Option.some_inj] at h
    rw [← h]
    rfl
  | cons r rs ih =>
    cases r with
    | none => simp [collectRows] at h
    | some v =>
      simp only [collectRows] at h
      cases hcr : collectRows rs with
      | none => rw [hcr] at h; simp at h
      | some o =>
        rw [hcr] at h
        have h2 : some (v :: o) = some out := h
        cases h2
        rw [List.map_cons, ih o hcr]

theorem lpad2Arr_ok (strs : Utf8Col) (lens : Int64Col) (out : Utf8Col)
    (h : lpad2Arr strs lens = RunResult.ok out) :
    out.length = strs.length ∧
    ∀ i, i < strs.length →
      lpad2Row (strs.getD i none) (lens.getD i none) =
        some (out.getD i none) := by
  unfold lpad2Arr at h
  cases hcr : collectRows ((List.range strs.length).map
      (fun i => lpad2Row (strs.getD i none) (lens.getD i none))) with
  | none =>
    rw [hcr] at h
    exact absurd h (by intro hx; exact RunResult.noConfusion hx)
  | some o =>
    rw [hcr] at h
    have ho : out = o := by
      have h' : RunResult.ok o = RunResult.ok out := h
      cases h'
      rfl
    subst ho
    have hrows := collectRows_eq_some _ _ hcr
    have hlen : out.length = strs.length := by
      have := congrArg List.length hrows
      simpa using this.symm
    refine ⟨hlen, fun i hi => ?_⟩
    have h1 : ((List.range strs.length).map
        (fun i => lpad2Row (strs.getD i none) (lens.getD i none))).getD i none =
        lpad2Row (strs.getD i none) (lens.getD i none) :=
      rangeMap_getD _ _ i hi none
    have h2 : ((List.range strs.length).map
        (fun i => lpad2Row (strs.getD i none) (lens.getD i none))).getD i none =
        (out.map some).getD i none := by rw [hrows]
    have h3 : (out.map some).getD i none = some (out.getD i none) :=
      getD_map_of_lt some out i (hlen ▸ hi) none none
    rw [← h1, h2, h3]

theorem lpad3Arr_ok (strs : Utf8Col) (lens : Int64Col) (fills : Utf8Col)
    (out : Utf8Col) (h : lpad3Arr strs lens fills = RunResult.ok out) :
    out.length = strs.length ∧
    ∀ i, i < strs.length →
      lpad3Row (strs.getD i none) (lens.getD i none) (fills.getD i none) =
        some (out.getD i none) := by
  unfold lpad3Arr at h
  cases hcr : collectRows ((List.range strs.length).map
      (fun i => lpad3Row (strs.getD i none) (lens.getD i none)
        (fills.getD i none))) with
  | none =>
    rw [hcr] at h
    exact absurd h (by intro hx; exact RunResult.noConfusion hx)
  | some o =>
    rw [hcr] at h
    have ho : out = o := by
      have h' : RunResult.ok o = RunResult.ok out := h
      cases h'
      rfl
    subst ho
    have hrows := collectRows_eq_some _ _ hcr
    have hlen : out.length = strs.length := by
      have := congrArg List.length hrows
      simpa using this.symm
    refine ⟨hlen, fun i hi => ?_⟩
    have h1 : ((List.range strs.length).map
        (fun i => lpad3Row (strs.getD i none) (lens.getD i none)
          (fills.getD i none))).getD i none =
        lpad3Row (strs.getD i none) (lens.getD i none) (fills.getD i none) :=
      rangeMap_getD _ _ i hi none
    have h2 : ((List.range strs.length).map
        (fun i => lpad3Row (strs.getD i none) (lens.getD i none)
          (fills.getD i none))).getD i none =
        (out.map some).getD i none := by rw [hrows]
    have h3 : (out.map some).getD i none = some (out.getD i none) :=
      getD_map_of_lt some out i (hlen ▸ hi) none none
    rw [← h1, h2, h3]

theorem lpad2Row_isNone (x : Option RStr) (len : Option Int) (r : Option RStr)
    (h : lpad2Row x len = some r) : (r.isNone ↔ (x.isNone ∨ len.isNone)) := by
  cases len with
  | none =>
    have h' : some (none : Option RStr) = some r := h
    cases h'
    simp
  | some L =>
    cases x with
    | none =>
      have h' : some (none : Option RStr) = some r := h
      cases h'
      simp
    | some s =>
      have h' : (lpadCore2 s (i64ToUsize L)).map some = some r := h
      cases hc : lpadCore2 s (i64ToUsize L) with
      | none => rw [hc] at h'; simp at h'
      | some v =>
        rw [hc] at h'
        have h2 : some (some v) = some r := h'
        cases h2
        simp

theorem lpad3Row_isNone (x : Option RStr) (len : Option Int) (f : Option RStr)
    (r : Option RStr) (h : lpad3Row x len f = some r) :
    (r.isNone ↔ (x.isNone ∨ len.isNone ∨ f.isNone)) := by
  cases len with
  | none =>
    have h' : some (none : Option RStr) = some r := h
    cases h'
    simp
  | some L =>
    cases f with
    | none =>
      have h' : some (none : Option RStr) = some r := h
      cases h'
      simp
    | some fl =>
      cases x with
      | none =>
        have h' : some (none : Option RStr) = some r := h
        cases h'
        simp
      | some s =>
        have h' : (lpadCore3 s fl (i64ToUsize L)).map some = some r := h
        cases hc : lpadCore3 s fl (i64ToUsize L) with
        | none => rw [hc] at h'; simp at h'
        | some v =>
          rw [hc] at h'
          have h2 : some (some v) = some r := h'
          cases h2
          simp

/-! ### Claim theorems -/

/-- C9: for every string array A of any length and any null pattern,
concatenate applied to the single argument A returns an array equal to A:
every non-null row keeps its value and a row is null in the output exactly
when it is null in A. -/
theorem C9_concatenate_single_identity (A : Utf8Col) :
    concatenate [ArrayRef.utf8 A] = RunResult.ok A := by
  have h1 : downcastVec [ArrayRef.utf8 A] = Except.ok [A] := downcastVec_utf8 [A]
  unfold concatenate
  rw [h1]
  show RunResult.ok ((List.range A.length).map (concatRow [A])) = RunResult.ok A
  congr 1
  apply List.ext_getElem
  · simp
  · intro i h1' h2'
    rw [List.getElem_map, List.getElem_range]
    show (match A.getD i none with
      | none => none
      | some v => (concatRow [] i).map (fun s => v ++ s)) = A[i]
    rw [List.getD_eq_getElem A none h2']
    cases hA : A[i] with
    | none => rfl
    | some v =>
      show (some []).map (fun s => v ++ s) = some v
      simp

/-- C3: for a non-empty list of equal-length string columns, row i of
concatenate is null exactly when some input column is null at i, and
otherwise is the concatenation of the column values at i in argument
order. -/
theorem C3_concatenate_rowwise (cols : List Utf8Col) (N : Nat)
    (hne : cols ≠ []) (hlen : cols.all (fun c => c.length == N) = true)
    (i : Nat) (hi : i < N) :
    ∃ out, concatenate (cols.map ArrayRef.utf8) = RunResult.ok out ∧
      out.length = N ∧
      out.getD i none =
        (if cols.any (fun c => (c.getD i none).isNone) then none
         else some ((cols.map (fun c => (c.getD i none).getD [])).flatten)) := by
  obtain ⟨c0, rest, rfl⟩ : ∃ c0 rest, cols = c0 :: rest := by
    cases cols with
    | nil => exact absurd rfl hne
    | cons a l => exact ⟨a, l, rfl⟩
  have hN : ((c0 :: rest).headD []).length = N := by
    simp only [List.all_cons, Bool.and_eq_true, beq_iff_eq] at hlen
    exact hlen.1
  refine ⟨(List.range N).map (concatRow (c0 :: rest)), ?_, ?_, ?_⟩
  · unfold concatenate
    rw [downcastVec_utf8]
    show RunResult.ok ((List.range ((c0 :: rest).headD []).length).map
      (concatRow (c0 :: rest))) = _
    rw [hN]
  · simp
  · rw [rangeMap_getD _ _ i hi none]
    by_cases hb : (c0 :: rest).any (fun c => (c.getD i none).isNone) = true
    · rw [concatRow_of_null _ _ hb, if_pos hb]
    · have hb2 : (c0 :: rest).any (fun c => (c.getD i none).isNone) = false := by
        cases h' : (c0 :: rest).any (fun c => (c.getD i none).isNone) with
        | true => exact absurd h' hb
        | false => rfl
      rw [concatRow_of_no_null _ _ hb2, if_neg hb]

/-- Witness for C3 at two concrete columns of length 2 and row 0. -/
theorem C3_witness :
    (([[some (str "a"), none], [some (str "b"), some (str "c")]] :
        List Utf8Col) ≠ [] ∧
     ([[some (str "a"), none], [some (str "b"), some (str "c")]] :
        List Utf8Col).all (fun c => c.length == 2) = true ∧
     0 < 2) ∧
    (∃ out, concatenate
        (([[some (str "a"), none], [some (str "b"), some (str "c")]] :
          List Utf8Col).map ArrayRef.utf8) = RunResult.ok out ∧
      out.length = 2 ∧
      out.getD 0 none =
        (if ([[some (str "a"), none], [some (str "b"), some (str "c")]] :
            List Utf8Col).any (fun c => (c.getD 0 none).isNone) then none
         else some ((([[some (str "a"), none],
            [some (str "b"), some (str "c")]] : List Utf8Col).map
              (fun c => (c.getD 0 none).getD [])).flatten))) :=
  ⟨⟨by decide, by decide, by decide⟩,
    C3_concatenate_rowwise _ 2 (by decide) (by decide) 0 (by decide)⟩

/-- C4: for every row i of lpad over equal-length inputs, when a result
array is produced, the output at i is null exactly when the string is null
at i, or the length is null at i, or (3-argument form) the fill is null at
i. -/
theorem C4_lpad_null_propagation (strs : Utf8Col) (lens : Int64Col)
    (fills : Utf8Col) (i : Nat) (hi : i < strs.length)
    (_hl : lens.length = strs.length) (_hf : fills.length = strs.length)
    (out2 out3 : Utf8Col)
    (h2 : lpad OffsetWidth.i32 [ArrayRef.utf8 strs, ArrayRef.int64 lens] =
      RunResult.ok out2)
    (h3 : lpad OffsetWidth.i32
      [ArrayRef.utf8 strs, ArrayRef.int64 lens, ArrayRef.utf8 fills] =
      RunResult.ok out3) :
    ((out2.getD i none).isNone ↔
      ((strs.getD i none).isNone ∨ (lens.getD i none).isNone)) ∧
    ((out3.getD i none).isNone ↔
      ((strs.getD i none).isNone ∨ (lens.getD i none).isNone ∨
        (fills.getD i none).isNone)) := by
  have h2' : lpad2Arr strs lens = RunResult.ok out2 := h2
  have h3' : lpad3Arr strs lens fills = RunResult.ok out3 := h3
  obtain ⟨hlen2, hrow2⟩ := lpad2Arr_ok strs lens out2 h2'
  obtain ⟨hlen3, hrow3⟩ := lpad3Arr_ok strs lens fills out3 h3'
  exact ⟨lpad2Row_isNone _ _ _ (hrow2 i hi),
    lpad3Row_isNone _ _ _ _ (hrow3 i hi)⟩

/-- Witness for C4 at concrete length-3 arrays and row 1 (null string). -/
theorem C4_witness :
    ((1 : Nat) < ([some (str "ab"), none, some (str "c")] : Utf8Col).length ∧
     ([some 4, some 2, none] : Int64Col).length =
       ([some (str "ab"), none, some (str "c")] : Utf8Col).length ∧
     ([some (str "z"), some (str "z"), some (str "z")] : Utf8Col).length =
       ([some (str "ab"), none, some (str "c")] : Utf8Col).length ∧
     lpad OffsetWidth.i32
       [ArrayRef.utf8 [some (str "ab"), none, some (str "c")],
        ArrayRef.int64 [some 4, some 2, none]] =
       RunResult.ok [some (str "  ab"), none, none] ∧
     lpad OffsetWidth.i32
       [ArrayRef.utf8 [some (str "ab"), none, some (str "c")],
        ArrayRef.int64 [some 4, some 2, none],
        ArrayRef.utf8 [some (str "z"), some (str "z"), some (str "z")]] =
       RunResult.ok [some (str "zzab"), none, none]) ∧
    ((((([some (str "  ab"), none, none] : Utf8Col).getD 1 none).isNone) ↔
       ((([some (str "ab"), none, some (str "c")] : Utf8Col).getD 1
          none).isNone ∨
        (([some 4, some 2, none] : Int64Col).getD 1 none).isNone)) ∧
     (((([some (str "zzab"), none, none] : Utf8Col).getD 1 none).isNone) ↔
       ((([some (str "ab"), none, some (str "c")] : Utf8Col).getD 1
          none).isNone ∨
        (([some 4, some 2, none] : Int64Col).getD 1 none).isNone ∨
        ((([some (str "z"), some (str "z"), some (str "z")] :
          Utf8Col).getD 1 none).isNone)))) :=
  ⟨⟨by decide, by decide, by decide, by decide, by decide⟩,
    C4_lpad_null_propagation [some (str "ab"), none, some (str "c")]
      [some 4, some 2, none] [some (str "z"), some (str "z"), some (str "z")]
      1 (by decide) (by decide) (by decide)
      [some (str "  ab"), none, none] [some (str "zzab"), none, none]
      (by decide) (by decide)⟩

/-- C8: each unary kernel maps a null row to null and a non-null value v to
f(v), with f the respective embedded character function (ASCII lowercase,
ASCII uppercase, trim both ends, trim leading, trim trailing); case
conversion is ASCII-only, as the concrete multi-byte example shows. -/
theorem C8_unary_kernels (data : Utf8Col) (i : Nat) (hi : i < data.length) :
    lower OffsetWidth.i32 [ArrayRef.utf8 data] =
      RunResult.ok (data.map (Option.map asciiLowerStr)) ∧
    (data.map (Option.map asciiLowerStr)).getD i none =
      (data.getD i none).map asciiLowerStr ∧
    upper OffsetWidth.i32 [ArrayRef.utf8 data] =
      RunResult.ok (data.map (Option.map asciiUpperStr)) ∧
    (data.map (Option.map asciiUpperStr)).getD i none =
      (data.getD i none).map asciiUpperStr ∧
    trim OffsetWidth.i32 [ArrayRef.utf8 data] =
      RunResult.ok (data.map (Option.map trimFn)) ∧
    (data.map (Option.map trimFn)).getD i none =
      (data.getD i none).map trimFn ∧
    ltrim OffsetWidth.i32 [ArrayRef.utf8 data] =
      RunResult.ok (data.map (Option.map trimStartFn)) ∧
    (data.map (Option.map trimStartFn)).getD i none =
      (data.getD i none).map trimStartFn ∧
    rtrim OffsetWidth.i32 [ArrayRef.utf8 data] =
      RunResult.ok (data.map (Option.map trimEndFn)) ∧
    (data.map (Option.map trimEndFn)).getD i none =
      (data.getD i none).map trimEndFn ∧
    lower OffsetWidth.i32 [ArrayRef.utf8 [some (str "ÀB")]] =
      RunResult.ok [some (str "Àb")] ∧
    trim OffsetWidth.i32 [ArrayRef.utf8 [some (str "  hi  ")]] =
      RunResult.ok [some (str "hi")] ∧
    ltrim OffsetWidth.i32 [ArrayRef.utf8 [some (str "  hi  ")]] =
      RunResult.ok [some (str "hi  ")] ∧
    rtrim OffsetWidth.i32 [ArrayRef.utf8 [some (str "  hi  ")]] =
      RunResult.ok [some (str "  hi")] :=
  ⟨rfl, getD_map_of_lt _ _ _ hi none none,
   rfl, getD_map_of_lt _ _ _ hi none none,
   rfl, getD_map_of_lt _ _ _ hi none none,
   rfl, getD_map_of_lt _ _ _ hi none none,
   rfl, getD_map_of_lt _ _ _ hi none none,
   by decide, by decide, by decide, by decide⟩

/-- Witness for C8 at a concrete two-row array and row 0. -/
theorem C8_witness :
    ((0 : Nat) < ([some (str "Hi"), none] : Utf8Col).length ∧
     lower OffsetWidth.i32 [ArrayRef.utf8 [some (str "Hi"), none]] =
       RunResult.ok (([some (str "Hi"), none] : Utf8Col).map
         (Option.map asciiLowerStr))) ∧
    (([some (str "Hi"), none] : Utf8Col).map
        (Option.map asciiLowerStr)).getD 0 none =
      (([some (str "Hi"), none] : Utf8Col).getD 0 none).map asciiLowerStr ∧
    (([some (str "Hi"), none] : Utf8Col).map
        (Option.map trimEndFn)).getD 0 none =
      (([some (str "Hi"), none] : Utf8Col).getD 0 none).map trimEndFn :=
  ⟨⟨by decide, (C8_unary_kernels [some (str "Hi"), none] 0 (by decide)).1⟩,
   (C8_unary_kernels [some (str "Hi"), none] 0 (by decide)).2.1,
   (C8_unary_kernels [some (str "Hi"), none] 0
     (by decide)).2.2.2.2.2.2.2.2.2.1⟩

/-- A non-StringArray argument at any position of concatenate makes the
downcast collect stop with the Internal "failed to downcast" error,
whatever well-typed columns precede it and whatever follows it. -/
theorem downcastVec_err (cols : List Utf8Col) (a : ArrayRef)
    (rest : List ArrayRef) (ha : downcastStr OffsetWidth.i32 a = none) :
    downcastVec (cols.map ArrayRef.utf8 ++ a :: rest) =
      Except.error (DataFusionError.Internal "failed to downcast") := by
  induction cols with
  | nil =>
    cases a with
    | utf8 d => exact Option.noConfusion ha
    | largeUtf8 d => rfl
    | int64 d => rfl
  | cons c cs ih =>
    show (match downcastVec (cs.map ArrayRef.utf8 ++ a :: rest) with
      | Except.ok ds => Except.ok (c :: ds)
      | Except.error e => Except.error e) = _
    rw [ih]

/-- C6 counterexample: an ill-typed first argument of lpad makes the kernel
panic on a failed unwrap of the downcast, not return an error value, so a
downcast failure does not always fail by returning an error. -/
theorem C6_counterexample :
    lpad OffsetWidth.i32 [ArrayRef.int64 [], ArrayRef.int64 []] =
      RunResult.panicked := rfl

/-- C6 amended: only concatenate and the length argument of 2-argument lpad
turn a failed downcast into a returned Internal error (whose message does
not name the operation); the string argument of lpad, every downcast of the
3-argument form, and the unary kernels unwrap the downcast and panic on
mismatch. -/
theorem C6_downcast_failure_modes (a b : ArrayRef) (cols : List Utf8Col)
    (rest : List ArrayRef) (strs : Utf8Col) (lens : Int64Col)
    (fills : Utf8Col)
    (ha : downcastStr OffsetWidth.i32 a = none) (hb : downcastI64 b = none) :
    concatenate (cols.map ArrayRef.utf8 ++ a :: rest) =
      RunResult.err (DataFusionError.Internal "failed to downcast") ∧
    lpad OffsetWidth.i32 [ArrayRef.utf8 strs, b] =
      RunResult.err (DataFusionError.Internal
        "could not cast length to Int64Array") ∧
    lpad OffsetWidth.i32 [a, ArrayRef.int64 lens] = RunResult.panicked ∧
    lpad OffsetWidth.i32 [a, ArrayRef.int64 lens, ArrayRef.utf8 fills] =
      RunResult.panicked ∧
    lpad OffsetWidth.i32 [ArrayRef.utf8 strs, b, ArrayRef.utf8 fills] =
      RunResult.panicked ∧
    lpad OffsetWidth.i32 [ArrayRef.utf8 strs, ArrayRef.int64 lens, a] =
      RunResult.panicked ∧
    lower OffsetWidth.i32 [a] = RunResult.panicked ∧
    upper OffsetWidth.i32 [a] = RunResult.panicked ∧
    trim OffsetWidth.i32 [a] = RunResult.panicked ∧
    ltrim OffsetWidth.i32 [a] = RunResult.panicked ∧
    rtrim OffsetWidth.i32 [a] = RunResult.panicked := by
  have hcat : concatenate (cols.map ArrayRef.utf8 ++ a :: rest) =
      RunResult.err (DataFusionError.Internal "failed to downcast") := by
    unfold concatenate
    rw [downcastVec_err cols a rest ha]
  cases a with
  | utf8 d => exact Option.noConfusion ha
  | largeUtf8 d =>
    cases b with
    | int64 d2 => exact Option.noConfusion hb
    | utf8 d2 =>
      exact ⟨hcat, rfl, rfl, rfl, rfl, rfl, rfl, rfl, rfl, rfl, rfl⟩
    | largeUtf8 d2 =>
      exact ⟨hcat, rfl, rfl, rfl, rfl, rfl, rfl, rfl, rfl, rfl, rfl⟩
  | int64 d =>
    cases b with
    | int64 d2 => exact Option.noConfusion hb
    | utf8 d2 =>
      exact ⟨hcat, rfl, rfl, rfl, rfl, rfl, rfl, rfl, rfl, rfl, rfl⟩
    | largeUtf8 d2 =>
      exact ⟨hcat, rfl, rfl, rfl, rfl, rfl, rfl, rfl, rfl, rfl, rfl⟩

/-- Witness for C6 amended at a concrete Int64 argument in second position
of a three-argument concatenate, a Utf8 length argument, and an Int64 fill
argument. -/
theorem C6_witness :
    (downcastStr OffsetWidth.i32 (ArrayRef.int64 []) = none ∧
     downcastI64 (ArrayRef.utf8 []) = none) ∧
    (concatenate (([[some (str "x")]] : List Utf8Col).map ArrayRef.utf8 ++
        ArrayRef.int64 [] :: [ArrayRef.utf8 []]) =
      RunResult.err (DataFusionError.Internal "failed to downcast") ∧
    lpad OffsetWidth.i32 [ArrayRef.utf8 [], ArrayRef.utf8 []] =
      RunResult.err (DataFusionError.Internal
        "could not cast length to Int64Array") ∧
    lpad OffsetWidth.i32 [ArrayRef.int64 [], ArrayRef.int64 []] =
      RunResult.panicked ∧
    lpad OffsetWidth.i32
      [ArrayRef.int64 [], ArrayRef.int64 [], ArrayRef.utf8 []] =
      RunResult.panicked ∧
    lpad OffsetWidth.i32
      [ArrayRef.utf8 [], ArrayRef.utf8 [], ArrayRef.utf8 []] =
      RunResult.panicked ∧
    lpad OffsetWidth.i32
      [ArrayRef.utf8 [], ArrayRef.int64 [], ArrayRef.int64 []] =
      RunResult.panicked ∧
    lower OffsetWidth.i32 [ArrayRef.int64 []] = RunResult.panicked ∧
    upper OffsetWidth.i32 [ArrayRef.int64 []] = RunResult.panicked ∧
    trim OffsetWidth.i32 [ArrayRef.int64 []] = RunResult.panicked ∧
    ltrim OffsetWidth.i32 [ArrayRef.int64 []] = RunResult.panicked ∧
    rtrim OffsetWidth.i32 [ArrayRef.int64 []] = RunResult.panicked) :=
  ⟨⟨rfl, rfl⟩,
    C6_downcast_failure_modes (ArrayRef.int64 []) (ArrayRef.utf8 [])
      [[some (str "x")]] [ArrayRef.utf8 []] [] [] [] rfl rfl⟩

/-- C7: concatenate with zero arguments returns the arity error of the
source, and lpad with any argument count other than 2 or 3 returns an
arity error naming the required counts and the count received; no output
array is produced in either case. -/
theorem C7_arity_errors (T : OffsetWidth) (args : List ArrayRef)
    (h2 : args.length ≠ 2) (h3 : args.length ≠ 3) :
    concatenate [] = RunResult.err (DataFusionError.Internal
      "Concatenate was called with 0 arguments. It requires at least one.") ∧
    lpad T args = RunResult.err (DataFusionError.Internal
      ("lpad was called with " ++ toString args.length ++
        " arguments. It requires 2 or 3.")) := by
  refine ⟨rfl, ?_⟩
  rcases args with _ | ⟨a, _ | ⟨b, _ | ⟨c, rest⟩⟩⟩
  · rfl
  · rfl
  · exact absurd rfl h2
  · rcases rest with _ | ⟨d, rest2⟩
    · exact absurd rfl h3
    · rfl

/-- Witness for C7 at a concrete 4-argument call of lpad. -/
theorem C7_witness :
    (([ArrayRef.int64 [], ArrayRef.int64 [], ArrayRef.int64 [],
        ArrayRef.int64 []] : List ArrayRef).length ≠ 2 ∧
     ([ArrayRef.int64 [], ArrayRef.int64 [], ArrayRef.int64 [],
        ArrayRef.int64 []] : List ArrayRef).length ≠ 3) ∧
    (concatenate [] = RunResult.err (DataFusionError.Internal
      "Concatenate was called with 0 arguments. It requires at least one.") ∧
    lpad OffsetWidth.i32
      [ArrayRef.int64 [], ArrayRef.int64 [], ArrayRef.int64 [],
        ArrayRef.int64 []] =
      RunResult.err (DataFusionError.Internal
        ("lpad was called with " ++
          toString ([ArrayRef.int64 [], ArrayRef.int64 [], ArrayRef.int64 [],
            ArrayRef.int64 []] : List ArrayRef).length ++
          " arguments. It requires 2 or 3."))) :=
  ⟨⟨by decide, by decide⟩,
    C7_arity_errors OffsetWidth.i32
      [ArrayRef.int64 [], ArrayRef.int64 [], ArrayRef.int64 [],
        ArrayRef.int64 []] (by decide) (by decide)⟩

/-- C1 (code-bug evidence): lpad compares the target length against the
byte length and slices by bytes, so on multi-byte text it panics where the
claim requires the first L characters (length 1 equals the character count
of the one-character string) and pads by L minus the byte count instead of
L minus the character count (one pad character instead of two at L = 3),
and a byte-based truncation drops characters the claim keeps. -/
theorem C1_lpad_truncation_is_byte_based :
    lpad OffsetWidth.i32 [ArrayRef.utf8 [some (str "à")],
      ArrayRef.int64 [some 1]] = RunResult.panicked ∧
    lpad OffsetWidth.i32 [ArrayRef.utf8 [some (str "à")],
      ArrayRef.int64 [some 3]] = RunResult.ok [some (str " à")] ∧
    (str "à").length = 1 ∧ (str " à").length = 2 ∧
    lpad OffsetWidth.i32 [ArrayRef.utf8 [some (str "àbc")],
      ArrayRef.int64 [some 2]] = RunResult.ok [some (str "à")] ∧
    str "à" ≠ str "àb" := by decide

/-- C2 (code-bug evidence): the cycling of a non-empty fill pattern and the
length-0 rule behave as claimed on single-byte text, but the padding width
is the target length minus the byte length of s, not minus its character
count: at s with one 2-byte character and L = 3 the code emits one fill
character where the claim requires two. -/
theorem C2_lpad_padding_width_is_byte_based :
    lpad OffsetWidth.i32 [ArrayRef.utf8 [some (str "hi")],
      ArrayRef.int64 [some 0], ArrayRef.utf8 [some (str "xy")]] =
      RunResult.ok [some []] ∧
    lpad OffsetWidth.i32 [ArrayRef.utf8 [some (str "hi")],
      ArrayRef.int64 [some 5], ArrayRef.utf8 [some (str "xy")]] =
      RunResult.ok [some (str "xyxhi")] ∧
    lpad OffsetWidth.i32 [ArrayRef.utf8 [some (str "hi")],
      ArrayRef.int64 [some 5]] = RunResult.ok [some (str "   hi")] ∧
    lpad OffsetWidth.i32 [ArrayRef.utf8 [some (str "à")],
      ArrayRef.int64 [some 3], ArrayRef.utf8 [some (str "xy")]] =
      RunResult.ok [some (str "xà")] ∧
    str "xà" ≠ str "xyà" := by decide

/-- C5 (code-bug evidence): with an empty fill the code returns s unchanged
only when the target length is at least the byte length of s; at a
2-character 4-byte string and L = 3 (which exceeds the character count) the
byte-based truncation branch is taken instead and panics, where the claim
requires s unchanged. -/
theorem C5_lpad_empty_fill :
    lpad OffsetWidth.i32 [ArrayRef.utf8 [some (str "hi")],
      ArrayRef.int64 [some 5], ArrayRef.utf8 [some (str "")]] =
      RunResult.ok [some (str "hi")] ∧
    (str "àé").length = 2 ∧
    lpad OffsetWidth.i32 [ArrayRef.utf8 [some (str "àé")],
      ArrayRef.int64 [some 3], ArrayRef.utf8 [some (str "")]] =
      RunResult.panicked := by decide

/-- C10: the truncation branch slices at a byte index equal to the target
length, so a target length strictly between 0 and the byte length that
falls inside a multi-byte character makes lpad panic instead of returning
a value, in both the 2-argument and the 3-argument form. -/
theorem C10_lpad_not_total_byte_slice_panic :
    0 < 1 ∧ 1 < utf8Len (str "é") ∧
    lpad OffsetWidth.i32 [ArrayRef.utf8 [some (str "é")],
      ArrayRef.int64 [some 1]] = RunResult.panicked ∧
    0 < 2 ∧ 2 < utf8Len (str "aé") ∧
    lpad OffsetWidth.i32 [ArrayRef.utf8 [some (str "aé")],
      ArrayRef.int64 [some 2], ArrayRef.utf8 [some (str "x")]] =
      RunResult.panicked := by decide

end StringExprs
